import Mathlib

/-!
Verification of the HeyTeaAutoDrawer repository: a shallow embedding of its
configuration data (`config/config.py`), logging module
(`utils/print_utils.py`) and GUI handlers (`gui.py`), together with theorems
settling the specified properties. Components of the repository that are not
part of the given sources (the coordinate mapper and the config-reset
routine) are modelled from the specification and marked as such.
-/

namespace HeyTea

/-! ## Configuration data model -/

/-- A scalar configuration value: Python ints, floats (modelled exactly as
rationals, all literals in the config are decimal), booleans and strings. -/
inductive Value where
  | int (n : ℤ)
  | num (q : ℚ)
  | bool (b : Bool)
  | str (s : String)
deriving DecidableEq, Repr

/-- A configuration section: an ordered mapping of option name to value,
mirroring the insertion order of a Python dict. -/
abbrev ConfigSection := List (String × Value)

/-- A configuration: an ordered mapping of section name to section. -/
abbrev Config := List (String × ConfigSection)

/-- The persisted `CONFIG` dictionary from `config/config.py`, verbatim. -/
def CONFIG : Config :=
  [("draw_config",
      [("DELAY", .int 5),
       ("ENABLE_JITTER", .bool true),
       ("JITTER_AMOUNT", .num (3 / 2)),
       ("JITTER_FREQUENCY", .int 2),
       ("SPEED_FACTOR", .num (1 / 10))]),
   ("image_config",
      [("BRUSH_STEP", .int 3),
       ("CANNY_THRESH1", .int 50),
       ("CANNY_THRESH2", .int 150),
       ("EPSILON_FACTOR", .num (1 / 10000)),
       ("H_IMG", .int 1280),
       ("THRESHOLD_VALUE", .int 131),
       ("W_IMG", .int 960)]),
   ("screen_config",
      [("H", .int 910),
       ("W", .int 655),
       ("X_A", .int 1890),
       ("Y_A", .int 365)])]

/-- The key structure of a configuration: each section name paired with its
ordered list of option names. -/
def configShape (c : Config) : List (String × List String) :=
  c.map fun sp => (sp.1, sp.2.map Prod.fst)

/-- Lookup `c[s]`: the first section named `s` (dict keys are
unique, so the first is the only one). -/
def getSection : Config → String → Option ConfigSection
  | [], _ => none
  | sp :: tl, s => if sp.1 = s then some sp.2 else getSection tl s

/-- Lookup `sec[k]` inside one section. -/
def getKey : ConfigSection → String → Option Value
  | [], _ => none
  | kv :: tl, k => if kv.1 = k then some kv.2 else getKey tl k

/-- Lookup `c[s][k]`. -/
def getValue (c : Config) (s k : String) : Option Value :=
  (getSection c s).bind fun sec => getKey sec k

/-- Python dict assignment `sec[k] = v` inside one section: replace the first
binding of `k` in place (dict assignment keeps insertion order), or append a
new binding when `k` is absent. -/
def setKey : ConfigSection → String → Value → ConfigSection
  | [], k, v => [(k, v)]
  | kv :: tl, k, v => if kv.1 = k then (k, v) :: tl else kv :: setKey tl k v

/-- Assignment `c[s][k] = v` on the section list, assuming the section is present:
update the first section named `s`, leave the others untouched. -/
def setValueFn : Config → String → String → Value → Config
  | [], _, _, _ => []
  | sp :: tl, s, k, v =>
    if sp.1 = s then (sp.1, setKey sp.2 k v) :: tl
    else sp :: setValueFn tl s k v

/-- Whether configuration `c` has a section named `s`. -/
def hasSection (c : Config) (s : String) : Bool :=
  c.any fun sp => sp.1 = s

/-- Assignment `self.config_data[section][key] = val`: raises `KeyError` when the
section is absent, otherwise assigns into that section. -/
def setValue (c : Config) (s k : String) (v : Value) :
    Except String Config :=
  if hasSection c s then .ok (setValueFn c s k v)
  else .error ("KeyError: " ++ s)

/-! ## `utils/print_utils.py`

A logging sink (the console `print` builtin, or a registered GUI callback) is
modelled as a function `String → Except String Unit`: invoking it on a message
either returns normally or raises an exception carrying a message.
-/

/-- A logging sink: receives one string, may raise. -/
abbrev Sink := String → Except String Unit

/-- The module-level `_gui_callback` variable: an optional registered sink. -/
abbrev GuiCallbackState := Option Sink

/-- Function `register_gui_logger(func)`: assigns the module-level `_gui_callback`.
Passing a callback registers it (replacing any previous one); passing `none`
(Python `None`) unregisters. -/
def register_gui_logger (func : GuiCallbackState) (_st : GuiCallbackState) :
    GuiCallbackState :=
  func

/-- The observable calls `_emit` makes: the strings passed to the console
`print` and the strings passed to the GUI callback, in order. -/
structure EmitTrace where
  consoleCalls : List String
  guiCalls : List String
deriving DecidableEq, Repr

/-- Function `_emit(text)`: try to print `text` to the console, swallowing any
exception; then, if a GUI callback is registered, invoke it on `text`,
swallowing any exception. Each `try/except pass` block is embedded as a
match that continues on both the normal and the raising outcome; a
propagation point (`Except.error e => .error e`) remains where an uncaught
exception would escape. -/
def emit (console : Sink) (callback : GuiCallbackState) (text : String) :
    Except String EmitTrace :=
  let tryPrint : Except String Unit :=
    match console text with
    | .ok u => .ok u
    | .error _ => .ok ()
  match tryPrint with
  | .error e => .error e
  | .ok _ =>
    match callback with
    | none => .ok ⟨[text], []⟩
    | some f =>
      let tryCb : Except String Unit :=
        match f text with
        | .ok u => .ok u
        | .error _ => .ok ()
      match tryCb with
      | .error e => .error e
      | .ok _ => .ok ⟨[text], [text]⟩

/-! ## `gui.py` — the configuration editor (`open_modify_config`) -/

/-- The result of evaluating an entered text with the Python `eval` builtin:
either a value or a raised exception. The evaluator itself is outside the
repository, so it is an abstract parameter. -/
abbrev Evaluator := String → Except String Value

/-- The value `save_and_close` stores for one entered text `raw`:
`try: val = eval(raw) except Exception: val = raw`. -/
def convertEntry (ev : Evaluator) (raw : String) : Value :=
  match ev raw with
  | .ok v => v
  | .error _ => .str raw

/-- The body of `save_and_close` in `open_modify_config`: for each editor
entry `(section, key) ↦ raw`, obtain the stored value via `convertEntry`
and assign it with `self.config_data[section][key] = val`, in entry order.
(The subsequent `save_config`, log append and panel refresh are side effects
outside this model.) -/
def save_and_close (ev : Evaluator) :
    Config → List ((String × String) × String) → Except String Config
  | cfg, [] => .ok cfg
  | cfg, e :: tl =>
    match setValue cfg e.1.1 e.1.2 (convertEntry ev e.2) with
    | .ok c1 => save_and_close ev c1 tl
    | .error err => .error err

/-! ## `gui.py` — the start-drawing handler and the run lifecycle -/

/-- The warning text shown by `start_drawing` when no image is selected. -/
def noImageWarningText : String := "请先通过 文件 -> 打开文件 选择图片。"

/-- The two drawer classes `start_drawing` can instantiate. -/
inductive Drawer where
  | autoDrawerCanny
  | autoDrawerScan
deriving DecidableEq, Repr

/-- One observable action of the `start_drawing` handler or of its worker.
Effects inside a `spawnThread` body execute on the new thread; all other
effects execute on the calling (UI) thread. -/
inductive Effect where
  | showWarning (title msg : String)
  | appendLog (msg : String)
  | setStartEnabled (enabled : Bool)
  | drawRun (drawer : Drawer) (imagePath : String)
  | spawnThread (daemon : Bool) (body : List Effect)

/-- Whether an effect is the execution of a drawing run (`drawer.run`). -/
def Effect.isDrawRun : Effect → Bool
  | .drawRun _ _ => true
  | _ => false

/-- The body of the worker `run_draw`: construct the drawer selected by the
algorithm string and run it on the image; the `try` arm logs completion, the
`except` arm logs the error text, and the `finally` arm re-enables the start
button. `runOutcome` abstracts whether `drawer.run` returns normally
(`none`) or raises (`some` exception text). -/
def run_draw (algo imagePath : String) (runOutcome : Option String) :
    List Effect :=
  [Effect.drawRun
      (if algo = "边缘" then .autoDrawerCanny else .autoDrawerScan)
      imagePath] ++
  (match runOutcome with
   | none => [Effect.appendLog "绘画完成"]
   | some e => [Effect.appendLog ("绘画出错: " ++ e)]) ++
  [Effect.setStartEnabled true]

/-- The `start_drawing` handler, as the list of effects it performs on the
UI thread: with no image selected, show a warning and return; otherwise log,
disable the start button and spawn the daemon worker thread whose body is
`run_draw`. -/
def start_drawing (imagePath : Option String) (algo : String)
    (runOutcome : Option String) : List Effect :=
  match imagePath with
  | none => [Effect.showWarning "未选择图片" noImageWarningText]
  | some p =>
      [Effect.appendLog ("开始绘画 - 算法: " ++ algo),
       Effect.setStartEnabled false,
       Effect.spawnThread true (run_draw algo p runOutcome)]

/-- The GUI state observed by the run lifecycle: the selected image path,
whether the start button accepts clicks, the number of active worker runs,
the loaded configuration, the appended log lines and the warning dialogs
shown. -/
structure GuiState where
  imagePath : Option String
  startEnabled : Bool
  activeRuns : Nat
  config_data : Config
  logs : List String
  warnings : List String
deriving Repr

/-- The state built by `HeyTeaGUI.__init__`: configuration loaded, no image
selected, start button enabled, no worker running. -/
def initState (cfg : Config) : GuiState :=
  { imagePath := none, startEnabled := true, activeRuns := 0,
    config_data := cfg, logs := [], warnings := [] }

/-- An event of the run lifecycle: the user clicks the start button, an
active worker finishes its `finally` block (normally when `ok`, after an
exception otherwise), or the user opens an image file. -/
inductive Event where
  | clickStart (algo : String)
  | workerFinish (ok : Bool) (errText : String)
  | openFile (path : String)

/-- One lifecycle step. A click on the start button reaches the
`start_drawing` command only while the button is enabled (a disabled Tk
button does not fire); `start_drawing` then either warns (no image) or
disables the button and starts a worker. A finishing worker appends its
log line, re-enables the button and ends its run; the event exists only
while a worker is active. -/
def step (s : GuiState) : Event → GuiState
  | .clickStart algo =>
    if s.startEnabled then
      match s.imagePath with
      | none => { s with warnings := s.warnings ++ [noImageWarningText] }
      | some _ =>
        { s with logs := s.logs ++ ["开始绘画 - 算法: " ++ algo],
                 startEnabled := false,
                 activeRuns := s.activeRuns + 1 }
    else s
  | .workerFinish ok errText =>
    match s.activeRuns with
    | 0 => s
    | n + 1 =>
      { s with
          logs := s.logs ++
            [if ok then "绘画完成" else "绘画出错: " ++ errText],
          startEnabled := true,
          activeRuns := n }
  | .openFile p =>
    { s with imagePath := some p, logs := s.logs ++ ["已打开图片: " ++ p] }

/-- A trace of lifecycle events applied in order. -/
def runEvents (s : GuiState) : List Event → GuiState
  | [] => s
  | e :: es => runEvents (step s e) es

/-- The run-lifecycle invariant: at most one worker run is active, and the
start button is enabled exactly while no run is active. -/
def RunInvariant (s : GuiState) : Prop :=
  s.activeRuns ≤ 1 ∧ (s.startEnabled = true ↔ s.activeRuns = 0)

/-! ## Spec-modelled components (not part of the given sources) -/

/-- The option keys a reset preserves: the image-dimension and threshold
options of `image_config` and every `screen_config` key. -/
def preservedKey (s k : String) : Bool :=
  (s = "screen_config") ||
  ((s = "image_config") &&
    ((k = "H_IMG") || (k = "W_IMG") || (k = "THRESHOLD_VALUE")))

/-- Rewrite every value of a configuration, keyed by section and option. -/
def mapConfigValues (f : String → String → Value → Value) (c : Config) :
    Config :=
  c.map fun sp => (sp.1, sp.2.map fun kv => (kv.1, f sp.1 kv.1 kv.2))

/-- Modelled from the spec: `reset_config_file` (in `utils/config_utils.py`,
which is not among the given sources) "resets all but
image-dimension/threshold and screen-rectangle keys to defaults". The
default table is the shipped `CONFIG`; a preserved key keeps its current
value, every other recognized key is restored to its default. -/
def reset_config_file (current : Config) : Config :=
  mapConfigValues
    (fun s k dv =>
      if preservedKey s k then (getValue current s k).getD dv else dv)
    CONFIG

/-- A calibrated screen rectangle: origin `(X_A, Y_A)` and size `(W, H)`,
from `screen_config`. -/
structure ScreenRect where
  xa : ℚ
  ya : ℚ
  w : ℚ
  h : ℚ

/-- Modelled from the spec: the Coordinate Mapper (inside the drawer cores
`core/auto_drawer_canny.py` and `core/auto_drawer_scan.py`, which are not
among the given sources) maps an image-space point `(x, y)` to screen space
via the affine transform `screen_x = X_A + x * (W / W_IMG)`,
`screen_y = Y_A + y * (H / H_IMG)`. -/
def mapPoint (r : ScreenRect) (wImg hImg : ℚ) (x y : ℚ) : ℚ × ℚ :=
  (r.xa + x * (r.w / wImg), r.ya + y * (r.h / hImg))

/-- A configuration obtained from the defaults by editing one preserved key
(`screen_config.X_A ↦ 42`) and one non-preserved key
(`draw_config.DELAY ↦ 99`); used to witness the reset frame property. -/
def editedConfig : Config :=
  setValueFn (setValueFn CONFIG "draw_config" "DELAY" (.int 99))
    "screen_config" "X_A" (.int 42)

end HeyTea

namespace HeyTea

/-! ## Theorems -/

/-- C1: the persisted configuration has exactly the recognized sections
`draw_config`, `image_config`, `screen_config`, and each section has exactly
the recognized option keys (as sets: no key missing, no extra key, no
duplicate key). -/
theorem config_recognized_keys_exact :
    (configShape CONFIG).map Prod.fst
        = ["draw_config", "image_config", "screen_config"] ∧
    (((configShape CONFIG).lookup "draw_config").getD []).Perm
        ["DELAY", "ENABLE_JITTER", "JITTER_AMOUNT", "JITTER_FREQUENCY",
         "SPEED_FACTOR"] ∧
    (((configShape CONFIG).lookup "image_config").getD []).Perm
        ["BRUSH_STEP", "CANNY_THRESH1", "CANNY_THRESH2", "EPSILON_FACTOR",
         "H_IMG", "W_IMG", "THRESHOLD_VALUE"] ∧
    (((configShape CONFIG).lookup "screen_config").getD []).Perm
        ["H", "W", "X_A", "Y_A"] ∧
    (∀ p ∈ configShape CONFIG, p.2.Nodup) := by
  decide

/-- Lemma: `_emit` always returns normally and its trace is the text delivered to
the console and, when registered, to the GUI callback. -/
theorem emit_eq (console : Sink) (cb : GuiCallbackState) (text : String) :
    emit console cb text =
      .ok ⟨[text], match cb with | none => [] | some _ => [text]⟩ := by
  unfold emit
  cases h1 : console text with
  | ok u =>
    cases cb with
    | none => rfl
    | some f =>
      cases h2 : f text with
      | ok u2 => dsimp only; rw [h2]
      | error e2 => dsimp only; rw [h2]
  | error e =>
    cases cb with
    | none => rfl
    | some f =>
      cases h2 : f text with
      | ok u2 => dsimp only; rw [h2]
      | error e2 => dsimp only; rw [h2]

/-- C2: for every message, every console behavior and every registered GUI
callback — including sinks that raise when invoked — `_emit` returns
normally: a logging-sink failure never propagates to the caller. -/
theorem emit_never_raises (console : Sink) (callback : GuiCallbackState)
    (text : String) : (emit console callback text).isOk = true := by
  rw [emit_eq]
  rfl

/-- C6: every message emitted through `_emit` is passed to the console print
with exactly the given text, and, when a GUI callback is registered, the
identical string is forwarded to that callback; with no callback registered,
only the console call occurs. -/
theorem emit_routes_verbatim (console : Sink) (callback : GuiCallbackState)
    (text : String) :
    ∃ tr : EmitTrace, emit console callback text = .ok tr ∧
      tr.consoleCalls = [text] ∧
      tr.guiCalls = (match callback with | none => [] | some _ => [text]) :=
  ⟨⟨[text], match callback with | none => [] | some _ => [text]⟩,
    emit_eq console callback text, rfl, rfl⟩

/-- Assigning a value never adds or removes a section. -/
theorem hasSection_setValueFn (c : Config) (s k : String) (v : Value)
    (s2 : String) :
    hasSection (setValueFn c s k v) s2 = hasSection c s2 := by
  induction c with
  | nil => rfl
  | cons sp tl ih =>
    by_cases h : sp.1 = s
    · simp only [setValueFn, if_pos h, hasSection, List.any_cons]
    · simp only [setValueFn, if_neg h, hasSection, List.any_cons]
      have ih2 := ih
      simp only [hasSection] at ih2
      rw [ih2]

/-- After `sec[k] = v`, looking up `k` yields `v`. -/
theorem getKey_setKey_same (sec : ConfigSection) (k : String) (v : Value) :
    getKey (setKey sec k v) k = some v := by
  induction sec with
  | nil => simp [setKey, getKey]
  | cons kv tl ih =>
    by_cases h : kv.1 = k
    · simp [setKey, getKey, h]
    · simp [setKey, getKey, h, ih]

/-- After `sec[k] = v`, looking up a different key is unchanged. -/
theorem getKey_setKey_other (sec : ConfigSection) (k k2 : String) (v : Value)
    (hne : k2 ≠ k) :
    getKey (setKey sec k v) k2 = getKey sec k2 := by
  have hk : ¬ k = k2 := fun h => hne h.symm
  induction sec with
  | nil => simp [setKey, getKey, hk]
  | cons kv tl ih =>
    by_cases h : kv.1 = k
    · have hkv : ¬ kv.1 = k2 := by rw [h]; exact hk
      simp [setKey, getKey, h, hk, hkv]
    · by_cases h2 : kv.1 = k2
      · simp [setKey, getKey, h, h2, hne]
      · simp [setKey, getKey, h, h2, ih]

/-- The assigned section after `c[s][k] = v`, as a map over the lookup. -/
theorem getSection_setValueFn_same (c : Config) (s k : String) (v : Value) :
    getSection (setValueFn c s k v) s
      = (getSection c s).map (fun sec => setKey sec k v) := by
  induction c with
  | nil => rfl
  | cons sp tl ih =>
    by_cases h : sp.1 = s
    · simp [setValueFn, getSection, h]
    · simp [setValueFn, getSection, h, ih]

/-- Sections other than the assigned one are unchanged by `c[s][k] = v`. -/
theorem getSection_setValueFn_other (c : Config) (s k s2 : String)
    (v : Value) (hne : ¬ s2 = s) :
    getSection (setValueFn c s k v) s2 = getSection c s2 := by
  induction c with
  | nil => rfl
  | cons sp tl ih =>
    have hns : ¬ s = s2 := fun hh => hne hh.symm
    by_cases h : sp.1 = s
    · have hsp : ¬ sp.1 = s2 := by rw [h]; exact hns
      simp [setValueFn, getSection, h, hsp, hns]
    · by_cases h2 : sp.1 = s2
      · simp [setValueFn, getSection, h, h2, hne]
      · simp [setValueFn, getSection, h, h2, ih]

/-- A present section is found by the lookup. -/
theorem getSection_isSome_of_hasSection (c : Config) (s : String)
    (h : hasSection c s = true) : (getSection c s).isSome = true := by
  induction c with
  | nil => simp [hasSection] at h
  | cons sp tl ih =>
    by_cases hh : sp.1 = s
    · simp [getSection, hh]
    · simp only [hasSection, List.any_cons, Bool.or_eq_true,
        decide_eq_true_eq] at h
      rcases h with h | h
      · exact absurd h hh
      · simp only [getSection, if_neg hh]
        exact ih h

/-- After `c[s][k] = v` with section `s` present, looking up `(s, k)`
yields `v`. -/
theorem getValue_setValueFn_same (c : Config) (s k : String) (v : Value)
    (h : hasSection c s = true) :
    getValue (setValueFn c s k v) s k = some v := by
  unfold getValue
  rw [getSection_setValueFn_same]
  cases hg : getSection c s with
  | none =>
    have := getSection_isSome_of_hasSection c s h
    rw [hg] at this
    exact absurd this (by simp)
  | some sec =>
    simp [getKey_setKey_same]

/-- After `c[s][k] = v`, looking up any other `(section, key)` pair is
unchanged. -/
theorem getValue_setValueFn_other (c : Config) (s k s2 k2 : String)
    (v : Value) (hne : ¬ (s2 = s ∧ k2 = k)) :
    getValue (setValueFn c s k v) s2 k2 = getValue c s2 k2 := by
  by_cases hs : s2 = s
  · subst hs
    have hk : k2 ≠ k := fun hh => hne ⟨rfl, hh⟩
    unfold getValue
    rw [getSection_setValueFn_same]
    cases hg : getSection c s2 with
    | none => rfl
    | some sec => simp [getKey_setKey_other _ _ _ _ hk]
  · unfold getValue
    rw [getSection_setValueFn_other _ _ _ _ _ hs]

/-- Saving entries that never assign to `(s, k)` succeeds (when all entry
sections are present) and leaves the lookup of `(s, k)` unchanged. -/
theorem save_and_close_preserves (ev : Evaluator)
    (entries : List ((String × String) × String)) :
    ∀ (c : Config) (s k : String),
    (∀ e ∈ entries, e.1 ≠ (s, k)) →
    (∀ e ∈ entries, hasSection c e.1.1 = true) →
    ∃ c2, save_and_close ev c entries = .ok c2 ∧
      getValue c2 s k = getValue c s k := by
  induction entries with
  | nil => exact fun c s k _ _ => ⟨c, rfl, rfl⟩
  | cons e tl ih =>
    intro c s k hnot hsec
    have hs : hasSection c e.1.1 = true := hsec e (List.mem_cons_self e tl)
    unfold save_and_close
    simp only [setValue, hs, if_true]
    obtain ⟨c2, hrun, hval⟩ :=
      ih (setValueFn c e.1.1 e.1.2 (convertEntry ev e.2)) s k
        (fun e2 he2 => hnot e2 (List.mem_cons_of_mem e he2))
        (fun e2 he2 => by
          rw [hasSection_setValueFn]
          exact hsec e2 (List.mem_cons_of_mem e he2))
    refine ⟨c2, hrun, ?_⟩
    rw [hval, getValue_setValueFn_other]
    rintro ⟨h1, h2⟩
    exact hnot e (List.mem_cons_self e tl) (by
      rw [Prod.ext_iff]
      exact ⟨h1.symm, h2.symm⟩)

/-- C3: when the configuration editor is saved, the value stored for each
entered text is the result of `eval` on that text, and when the evaluation
raises, the raw text string is stored unchanged instead. -/
theorem save_and_close_stores_eval_or_raw (ev : Evaluator)
    (entries : List ((String × String) × String)) :
    ∀ (cfg : Config) (s k raw : String),
    ((s, k), raw) ∈ entries →
    (entries.map Prod.fst).Nodup →
    (∀ e ∈ entries, hasSection cfg e.1.1 = true) →
    ∃ cfg2, save_and_close ev cfg entries = .ok cfg2 ∧
      getValue cfg2 s k =
        some (match ev raw with | .ok v => v | .error _ => .str raw) := by
  induction entries with
  | nil =>
    intro cfg s k raw hmem
    exact absurd hmem (List.not_mem_nil _)
  | cons e tl ih =>
    intro cfg s k raw hmem hnodup hsec
    have hs : hasSection cfg e.1.1 = true := hsec e (List.mem_cons_self e tl)
    unfold save_and_close
    simp only [setValue, hs, if_true]
    rcases List.mem_cons.mp hmem with heq | hin
    · subst heq
      have hnodup2 : (s, k) ∉ tl.map Prod.fst ∧ (tl.map Prod.fst).Nodup := by
        rw [List.map_cons] at hnodup
        exact List.nodup_cons.mp hnodup
      have hnot : ∀ e2 ∈ tl, e2.1 ≠ (s, k) := by
        intro e2 he2 hEq
        have hmemmap : (s, k) ∈ tl.map Prod.fst := by
          rw [← hEq]
          exact List.mem_map_of_mem Prod.fst he2
        exact hnodup2.1 hmemmap
      obtain ⟨c2, hrun, hval⟩ :=
        save_and_close_preserves ev tl
          (setValueFn cfg s k (convertEntry ev raw)) s k hnot
          (fun e2 he2 => by
            rw [hasSection_setValueFn]
            exact hsec e2 (List.mem_cons_of_mem _ he2))
      refine ⟨c2, hrun, ?_⟩
      rw [hval, getValue_setValueFn_same _ _ _ _ hs]
      rfl
    · exact ih (setValueFn cfg e.1.1 e.1.2 (convertEntry ev e.2)) s k raw hin
        ((List.nodup_cons.mp (by rw [List.map_cons] at hnodup; exact hnodup)).2)
        (fun e2 he2 => by
          rw [hasSection_setValueFn]
          exact hsec e2 (List.mem_cons_of_mem _ he2))

/-- An evaluator that always raises, standing in for `eval` failing on a
plain string. -/
def evalRaises : Evaluator := fun _ => .error "SyntaxError"

/-- Witness for C3 at a concrete input: saving the single entry
`draw_config.DELAY ↦ "hello"` with an evaluator that raises stores the raw
string `"hello"`. -/
theorem save_and_close_stores_eval_or_raw_witness :
    ∃ cfg2,
      save_and_close evalRaises CONFIG
          [(("draw_config", "DELAY"), "hello")] = .ok cfg2 ∧
      getValue cfg2 "draw_config" "DELAY" =
        some (match evalRaises "hello" with
              | .ok v => v
              | .error _ => .str "hello") :=
  save_and_close_stores_eval_or_raw evalRaises
    [(("draw_config", "DELAY"), "hello")] CONFIG "draw_config" "DELAY"
    "hello" (by simp) (by simp) (by decide)

/-- Every lifecycle step preserves the run invariant. -/
theorem step_preserves_invariant (s : GuiState) (e : Event)
    (h : RunInvariant s) : RunInvariant (step s e) := by
  obtain ⟨h1, h2⟩ := h
  cases e with
  | clickStart algo =>
    cases hen : s.startEnabled with
    | false =>
      simp only [step, hen, Bool.false_eq_true, if_false]
      exact ⟨h1, h2⟩
    | true =>
      have h0 : s.activeRuns = 0 := h2.mp hen
      cases himg : s.imagePath with
      | none =>
        simp only [step, hen, if_true, himg]
        exact ⟨h1, by simp [h0]⟩
      | some p =>
        simp only [step, hen, if_true, himg]
        refine ⟨by simp [h0], ?_⟩
        simp [h0]
  | workerFinish ok errText =>
    cases hn : s.activeRuns with
    | zero =>
      simp only [step, hn]
      exact ⟨h1, h2⟩
    | succ n =>
      have hn0 : n = 0 := by
        rw [hn] at h1
        omega
      simp only [step, hn]
      subst hn0
      exact ⟨by simp, by simp⟩
  | openFile p =>
    exact ⟨h1, h2⟩

/-- A trace of steps preserves the run invariant. -/
theorem runEvents_invariant (s : GuiState) (events : List Event)
    (h : RunInvariant s) : RunInvariant (runEvents s events) := by
  induction events generalizing s with
  | nil => exact h
  | cons e es ih => exact ih (step s e) (step_preserves_invariant s e h)

/-- C4: along every event trace from the initial GUI state, at most one
drawing run is active at a time, and the start control is enabled exactly
while no run is active — so it is disabled from the moment a run starts
until that run finishes (normally or with an exception), and two runs are
never interleaved. -/
theorem at_most_one_active_run (cfg : Config) (events : List Event) :
    (runEvents (initState cfg) events).activeRuns ≤ 1 ∧
    ((runEvents (initState cfg) events).startEnabled = true ↔
      (runEvents (initState cfg) events).activeRuns = 0) :=
  runEvents_invariant (initState cfg) events (by constructor <;> simp [initState])

/-- C5: both drawing variants run off the UI thread: the effect list the
`start_drawing` handler itself executes contains no drawing run, and
whenever an image is selected, the drawing run of the chosen variant occurs
inside the body of the spawned worker thread. -/
theorem draw_runs_on_worker_thread (imagePath : Option String)
    (algo : String) (runOutcome : Option String) :
    (∀ ef ∈ start_drawing imagePath algo runOutcome,
        ef.isDrawRun = false) ∧
    (∀ p, imagePath = some p →
      Effect.spawnThread true (run_draw algo p runOutcome)
          ∈ start_drawing imagePath algo runOutcome ∧
      Effect.drawRun
          (if algo = "边缘" then .autoDrawerCanny else .autoDrawerScan) p
          ∈ run_draw algo p runOutcome) := by
  constructor
  · intro ef hef
    cases imagePath with
    | none =>
      simp only [start_drawing, List.mem_singleton] at hef
      subst hef
      rfl
    | some p =>
      simp only [start_drawing, List.mem_cons, List.mem_singleton,
        List.not_mem_nil, or_false] at hef
      rcases hef with h | h | h <;> subst h <;> rfl
  · intro p hp
    subst hp
    constructor
    · simp [start_drawing]
    · simp [run_draw]

/-- Witness for C5 at a concrete input: with image `pic.png` and the edge
algorithm selected, the handler effects contain no drawing run, the worker
thread is spawned, and the Canny drawing run is inside its body. -/
theorem draw_runs_on_worker_thread_witness :
    (∀ ef ∈ start_drawing (some "pic.png") "边缘" none,
        ef.isDrawRun = false) ∧
    Effect.spawnThread true (run_draw "边缘" "pic.png" none)
        ∈ start_drawing (some "pic.png") "边缘" none ∧
    Effect.drawRun .autoDrawerCanny "pic.png"
        ∈ run_draw "边缘" "pic.png" none := by
  have h := draw_runs_on_worker_thread (some "pic.png") "边缘" none
  refine ⟨h.1, (h.2 "pic.png" rfl).1, ?_⟩
  have h2 := (h.2 "pic.png" rfl).2
  simpa using h2

/-- C10: when no image has been opened, a click on the (enabled) start
control changes the GUI state only by showing the warning dialog — the start
control stays enabled, no worker run starts, and the configuration, image
path and log are unchanged — and the handler effect list is exactly the one
warning (no thread spawn, no log, no button change). -/
theorem start_drawing_without_image (s : GuiState) (algo : String)
    (runOutcome : Option String)
    (himg : s.imagePath = none) (hen : s.startEnabled = true) :
    step s (.clickStart algo)
      = { s with warnings := s.warnings ++ [noImageWarningText] } ∧
    start_drawing s.imagePath algo runOutcome
      = [Effect.showWarning "未选择图片" noImageWarningText] := by
  constructor
  · simp [step, hen, himg]
  · rw [himg]
    rfl

/-- Witness for C10 at the initial state: no image is selected there, so a
start click only records the warning. -/
theorem start_drawing_without_image_witness :
    step (initState CONFIG) (.clickStart "边缘")
      = { initState CONFIG with
            warnings := (initState CONFIG).warnings ++ [noImageWarningText] } ∧
    start_drawing (initState CONFIG).imagePath "边缘" none
      = [Effect.showWarning "未选择图片" noImageWarningText] :=
  start_drawing_without_image (initState CONFIG) "边缘" none rfl rfl

/-- Looking up in a value-rewritten configuration rewrites the looked-up
value. -/
theorem getKey_map (g : String → Value → Value) (sec : ConfigSection)
    (k : String) :
    getKey (sec.map fun kv => (kv.1, g kv.1 kv.2)) k
      = (getKey sec k).map (g k) := by
  induction sec with
  | nil => rfl
  | cons kv tl ih =>
    by_cases h : kv.1 = k
    · simp [getKey, h]
    · simp [getKey, h, ih]

/-- Looking up in `mapConfigValues f c` maps `f` over the lookup in `c`. -/
theorem getValue_mapConfigValues (f : String → String → Value → Value)
    (c : Config) (s k : String) :
    getValue (mapConfigValues f c) s k = (getValue c s k).map (f s k) := by
  induction c with
  | nil => rfl
  | cons sp tl ih =>
    by_cases h : sp.1 = s
    · simp only [mapConfigValues, List.map_cons, getValue, getSection,
        if_pos h]
      subst h
      simp [getKey_map]
    · simp only [mapConfigValues, List.map_cons, getValue, getSection,
        if_neg h]
      simpa [mapConfigValues, getValue] using ih

/-- C7: resetting the configuration to defaults leaves each preserved
recognized option (`H_IMG`, `W_IMG`, `THRESHOLD_VALUE` and every
`screen_config` key) at its current value, and restores every other
recognized option to its default value. -/
theorem reset_config_frame (current : Config) (s k : String) (d v : Value)
    (hrec : getValue CONFIG s k = some d) :
    (preservedKey s k = true → getValue current s k = some v →
        getValue (reset_config_file current) s k = some v) ∧
    (preservedKey s k = false →
        getValue (reset_config_file current) s k = some d) := by
  constructor
  · intro hp hcur
    rw [reset_config_file, getValue_mapConfigValues, hrec]
    simp [hp, hcur]
  · intro hp
    rw [reset_config_file, getValue_mapConfigValues, hrec]
    simp [hp]

/-- Witness for C7 at a concrete input: after editing `screen_config.X_A`
to `42` (preserved) and `draw_config.DELAY` to `99` (not preserved), a reset
keeps `X_A = 42` and restores `DELAY` to its default `5`. -/
theorem reset_config_frame_witness :
    getValue (reset_config_file editedConfig) "screen_config" "X_A"
      = some (.int 42) ∧
    getValue (reset_config_file editedConfig) "draw_config" "DELAY"
      = some (.int 5) :=
  ⟨(reset_config_frame editedConfig "screen_config" "X_A" (.int 1890)
      (.int 42) (by decide)).1 (by decide) (by decide),
   (reset_config_frame editedConfig "draw_config" "DELAY" (.int 5)
      (.int 5) (by decide)).2 (by decide)⟩

/-- C8: for every calibrated screen rectangle with non-zero width and
height (and the non-degenerate working resolution guaranteed by the image
loader), the coordinate mapper sends the image corner `(0, 0)` to
`(X_A, Y_A)` and the corner `(W_IMG, H_IMG)` to `(X_A + W, Y_A + H)`. -/
theorem coordinate_mapper_round_trip (r : ScreenRect) (wImg hImg : ℚ)
    (_hw : r.w ≠ 0) (_hh : r.h ≠ 0) (hwi : wImg ≠ 0) (hhi : hImg ≠ 0) :
    mapPoint r wImg hImg 0 0 = (r.xa, r.ya) ∧
    mapPoint r wImg hImg wImg hImg = (r.xa + r.w, r.ya + r.h) := by
  unfold mapPoint
  constructor
  · simp
  · rw [Prod.mk.injEq]
    constructor
    · rw [mul_comm, div_mul_cancel₀ _ hwi]
    · rw [mul_comm, div_mul_cancel₀ _ hhi]

/-- Witness for C8 at the shipped calibration: rectangle
`(1890, 365, 655, 910)` and working resolution `960 × 1280`. -/
theorem coordinate_mapper_round_trip_witness :
    mapPoint ⟨1890, 365, 655, 910⟩ 960 1280 0 0 = (1890, 365) ∧
    mapPoint ⟨1890, 365, 655, 910⟩ 960 1280 960 1280
      = (1890 + 655, 365 + 910) :=
  coordinate_mapper_round_trip ⟨1890, 365, 655, 910⟩ 960 1280
    (by norm_num) (by norm_num) (by norm_num) (by norm_num)

/-- C9: registering a callback replaces any previously registered one (the
state after two registrations is exactly the second callback, at most one is
ever active); registering `None` unregisters, after which `_emit` makes no
GUI-callback call and the console call is unaffected. -/
theorem register_replaces_and_none_unregisters (st : GuiCallbackState)
    (f g : Sink) (console : Sink) (text : String) :
    register_gui_logger (some g) (register_gui_logger (some f) st) = some g ∧
    register_gui_logger none st = none ∧
    (∃ tr : EmitTrace,
      emit console (register_gui_logger none st) text = .ok tr ∧
      tr.guiCalls = [] ∧ tr.consoleCalls = [text]) :=
  ⟨rfl, rfl, ⟨⟨[text], []⟩, emit_eq console none text, rfl, rfl⟩⟩

end HeyTea
